import Mathlib

/-!
Verification development for the eligibility evaluator
(`src/eligibility.service.js` together with the `isObject` helper from
`src/utils.js`).

The JavaScript value domain is modelled as an inductive type `Value`:
`undefined`, `null`, booleans, numbers, strings, `Date` objects (carried as
their epoch-millisecond timestamp), arrays, and plain objects (association
lists of string keys, in insertion order, assumed duplicate-free as for real
JavaScript objects).  JavaScript numbers are modelled as integers; every
numeric literal appearing in the repository and in the claims is an integer,
and no claim depends on fractional or floating-point behaviour.

Fallible evaluation is modelled with `Except EvalErr Bool`, where
`EvalErr.invalidCriteria` mirrors the `InvalidCriteriaError` class of the
source and `EvalErr.typeError` mirrors native JavaScript `TypeError`s
(`Object.entries` applied to `null`/`undefined`).
-/

inductive Value where
  | vUndefined : Value
  | vNull : Value
  | vBool (b : Bool) : Value
  | vNum (n : Int) : Value
  | vStr (s : String) : Value
  | vDate (ms : Int) : Value
  | arr (xs : List Value) : Value
  | obj (fields : List (String × Value)) : Value

/-- Error kinds observable by a caller.  The source defines a single error
class `InvalidCriteriaError` (its `name` field is the string
`InvalidCriteriaError`); native `TypeError`s can additionally escape. -/
inductive EvalErr where
  | invalidCriteria (msg : String) : EvalErr
  | typeError (msg : String) : EvalErr

/-- The `e.name` discriminator a JavaScript caller would observe. -/
def EvalErr.errName : EvalErr → String
  | .invalidCriteria _ => "InvalidCriteriaError"
  | .typeError _ => "TypeError"

/-- `isObject` from `src/utils.js`:
`typeof value === 'object' && value !== null`.  Arrays and `Date` objects
satisfy it; `null` does not (despite `typeof null === 'object'`). -/
def isObject : Value → Bool
  | .arr _ => true
  | .obj _ => true
  | .vDate _ => true
  | _ => false

/-- Decimal digit character for `n < 10`, used for JavaScript array/string
index keys. -/
def digitChar (n : Nat) : Char := Char.ofNat (48 + n % 10)

def charDigit (c : Char) : Option Nat :=
  if 48 ≤ c.toNat ∧ c.toNat ≤ 57 then some (c.toNat - 48) else none

/-- Decimal digit list of `n` (most significant first).  The fuel argument is
always at least `n + 1`, which suffices because the value shrinks by a factor
of ten each step. -/
def natToStrAux : Nat → Nat → List Char
  | 0, _ => []
  | fuel + 1, n =>
    if n < 10 then [digitChar n]
    else natToStrAux fuel (n / 10) ++ [digitChar (n % 10)]

/-- Canonical decimal rendering of a natural number, as JavaScript produces
for array indices. -/
def natToStr (n : Nat) : String := String.mk (natToStrAux (n + 1) n)

/-- Parse a canonical array-index string: non-empty, all digits, no leading
zero (except `0` itself).  JavaScript array lookup by a non-canonical string
such as `07` misses. -/
def parseDigitsAux : Nat → List Char → Option Nat
  | acc, [] => some acc
  | acc, c :: cs =>
    match charDigit c with
    | some d => parseDigitsAux (acc * 10 + d) cs
    | none => none

def parseIndex (k : String) : Option Nat :=
  match k.data with
  | [] => none
  | c :: cs => if c = '0' ∧ cs ≠ [] then none else parseDigitsAux 0 (c :: cs)

/-- First-match association-list lookup, modelling `o[key]` on a plain
object; a missing key yields `undefined`. -/
def lookupField : List (String × Value) → String → Value
  | [], _ => .vUndefined
  | (k, v) :: rest, key => if k = key then v else lookupField rest key

/-- Property access `value[key]`, as the evaluator uses it: association
lookup on objects, index/length access on arrays and strings, `undefined`
everywhere else (dates expose no own enumerable data properties; prototype
methods are outside the modelled domain). -/
def getField : Value → String → Value
  | .obj fs, key => lookupField fs key
  | .arr xs, key =>
    if key = "length" then .vNum xs.length
    else
      match parseIndex key with
      | some i => (xs.get? i).getD .vUndefined
      | none => .vUndefined
  | .vStr s, key =>
    if key = "length" then .vNum s.length
    else
      match parseIndex key with
      | some i =>
        match s.data.get? i with
        | some c => .vStr (String.mk [c])
        | none => .vUndefined
      | none => .vUndefined
  | _, _ => .vUndefined

/-- Index-keyed entries of an array, as `Object.entries` produces them. -/
def arrayEntries : Nat → List Value → List (String × Value)
  | _, [] => []
  | i, x :: xs => (natToStr i, x) :: arrayEntries (i + 1) xs

/-- Index-keyed entries of a boxed string: each character becomes an own
enumerable property. -/
def stringEntries : Nat → List Char → List (String × Value)
  | _, [] => []
  | i, c :: cs => (natToStr i, .vStr (String.mk [c])) :: stringEntries (i + 1) cs

/-- `Object.entries`.  `none` models the native
`TypeError: Cannot convert undefined or null to object`.  Numbers, booleans
and dates box to objects with no own enumerable properties. -/
def entriesOf : Value → Option (List (String × Value))
  | .vNull => none
  | .vUndefined => none
  | .obj fs => some fs
  | .arr xs => some (arrayEntries 0 xs)
  | .vStr s => some (stringEntries 0 s.data)
  | _ => some []

/-! ### A size measure on values, used for termination of the evaluator -/

mutual

/-- Structural size of a value.  Object-typed values (arrays, objects,
dates) weigh at least 2, so `getField` on them is strictly decreasing. -/
def weight : Value → Nat
  | .arr xs => 2 + weightList xs
  | .obj fs => 2 + weightFields fs
  | .vDate _ => 2
  | _ => 1

def weightList : List Value → Nat
  | [] => 0
  | x :: xs => 1 + weight x + weightList xs

def weightFields : List (String × Value) → Nat
  | [] => 0
  | (_, v) :: fs => 1 + weight v + weightFields fs

end

theorem weight_pos : ∀ v, 0 < weight v := by
  intro v
  cases v <;> simp [weight]

theorem weight_le_weightList {x : Value} {xs : List Value} (h : x ∈ xs) :
    weight x ≤ weightList xs := by
  induction xs with
  | nil => cases h
  | cons y ys ih =>
    rcases List.mem_cons.mp h with h | h
    · subst h; simp [weightList]; omega
    · have := ih h; simp [weightList]; omega

theorem weight_lookupField (fs : List (String × Value)) (key : String) :
    weight (lookupField fs key) ≤ 1 + weightFields fs := by
  induction fs with
  | nil => simp [lookupField, weight, weightFields]
  | cons p ps ih =>
    cases p with
    | mk k v =>
      by_cases hk : k = key
      · simp [lookupField, hk, weightFields]; omega
      · simp [lookupField, hk, weightFields]; omega

/-- Property access on an object-typed value is strictly size-decreasing. -/
theorem weight_getField_lt {v : Value} (key : String)
    (h : isObject v = true) : weight (getField v key) < weight v := by
  cases v with
  | obj fs =>
    have := weight_lookupField fs key
    simp [getField, weight]; omega
  | arr xs =>
    simp only [getField]
    by_cases hl : key = "length"
    · simp [hl, weight]
      have : weightList xs ≥ 0 := Nat.zero_le _
      omega
    · simp only [if_neg hl]
      match hp : parseIndex key with
      | some i =>
        simp only [hp]
        match hx : xs.get? i with
        | some x =>
          have hmem : x ∈ xs := List.get?_mem hx
          have := weight_le_weightList hmem
          simp [weight]; omega
        | none => simp [weight]; omega
      | none => simp [hp, weight]; omega
  | vDate ms => simp [getField, weight]
  | vUndefined => simp [isObject] at h
  | vNull => simp [isObject] at h
  | vBool b => simp [isObject] at h
  | vNum n => simp [isObject] at h
  | vStr s => simp [isObject] at h

theorem weightFields_arrayEntries (i : Nat) (xs : List Value) :
    weightFields (arrayEntries i xs) = weightList xs := by
  induction xs generalizing i with
  | nil => simp [arrayEntries, weightFields, weightList]
  | cons x rest ih => simp [arrayEntries, weightFields, weightList, ih]

/-- The entries of an object-typed value weigh strictly less than the value
itself. -/
theorem weightFields_entriesOf_lt {v : Value} {es : List (String × Value)}
    (hv : isObject v = true) (he : entriesOf v = some es) :
    weightFields es < weight v := by
  cases v with
  | obj fs =>
    simp [entriesOf] at he; subst he; simp [weight]
  | arr xs =>
    simp [entriesOf] at he; subst he
    simp [weight, weightFields_arrayEntries]
  | vDate ms => simp [entriesOf] at he; subst he; simp [weight, weightFields]
  | vUndefined => simp [isObject] at hv
  | vNull => simp [isObject] at hv
  | vBool b => simp [isObject] at hv
  | vNum n => simp [isObject] at hv
  | vStr s => simp [isObject] at hv

/-! ### JavaScript primitive coercions and comparisons -/

/-- `ToNumber` on a trimmed string.  Integer literals (optional sign) are
parsed; the empty string is 0; anything else is NaN (`none`).  Fractional,
exponent and hexadecimal literals are not modelled: no value in this
repository nor in any claim exercises them. -/
def strToNumber (s : String) : Option Int :=
  let t := s.trim
  if t = "" then some 0
  else if t.startsWith "-" then ((t.drop 1).toNat?).map (fun n => -(n : Int))
  else if t.startsWith "+" then ((t.drop 1).toNat?).map (fun n => (n : Int))
  else (t.toNat?).map (fun n => (n : Int))

/-- `ToNumber` after `ToPrimitive` with number hint; `none` is NaN.
Dates coerce to their epoch milliseconds via `valueOf`.  Arrays and plain
objects are modelled as NaN (a real engine would stringify them first; no
claim compares such values numerically). -/
def toNumber : Value → Option Int
  | .vUndefined => none
  | .vNull => some 0
  | .vBool b => some (if b then 1 else 0)
  | .vNum n => some n
  | .vStr s => strToNumber s
  | .vDate ms => some ms
  | .arr _ => none
  | .obj _ => none

/-- The abstract relational comparison underlying `<`, `>`, `<=`, `>=`:
two strings compare lexicographically, otherwise both sides are coerced to
numbers; `none` (any NaN involved) makes every relational operator false. -/
def jsCompare : Value → Value → Option Ordering
  | .vStr a, .vStr b => some (compare a b)
  | a, b =>
    match toNumber a, toNumber b with
    | some x, some y => some (compare x y)
    | _, _ => none

def selGt : Ordering → Bool | .gt => true | _ => false
def selLt : Ordering → Bool | .lt => true | _ => false
def selGe : Ordering → Bool | .lt => false | _ => true
def selLe : Ordering → Bool | .gt => false | _ => true

/-- `_compareValues(a, b, compareFn)`: when both sides are `Date`s the
comparison function receives their epoch milliseconds, otherwise the raw
values (JavaScript relational semantics). -/
def compareValues (a b : Value) (sel : Ordering → Bool) : Bool :=
  match a, b with
  | .vDate x, .vDate y => sel (compare x y)
  | a, b =>
    match jsCompare a b with
    | some o => sel o
    | none => false

/-- JavaScript loose equality `==` restricted to the primitive domain the
evaluator feeds it (`undefined`, `null`, booleans, numbers, strings — the
guard in `_evaluateCondition` excludes object-typed values, so the
object/primitive coercion cases of `==` are unreachable and modelled as
false). -/
def looseEq : Value → Value → Bool
  | .vUndefined, .vUndefined => true
  | .vUndefined, .vNull => true
  | .vNull, .vUndefined => true
  | .vNull, .vNull => true
  | .vNum x, .vNum y => x = y
  | .vStr x, .vStr y => x = y
  | .vBool x, .vBool y => x = y
  | .vNum x, .vStr s =>
    match strToNumber s with
    | some y => x = y
    | none => false
  | .vStr s, .vNum y =>
    match strToNumber s with
    | some x => x = y
    | none => false
  | .vBool b, .vNum y => (if b then (1 : Int) else 0) = y
  | .vNum x, .vBool b => x = (if b then (1 : Int) else 0)
  | .vBool b, .vStr s =>
    match strToNumber s with
    | some x => (if b then (1 : Int) else 0) = x
    | none => false
  | .vStr s, .vBool b =>
    match strToNumber s with
    | some x => x = (if b then (1 : Int) else 0)
    | none => false
  | _, _ => false

/-- `_comparePrimitiveValues`: epoch-millisecond equality when both sides
are `Date`s, otherwise loose equality.  (At its only call site both sides
are guaranteed non-objects, which makes the `Date` branch dead code — see
the development on claim C3.) -/
def comparePrimitiveValues (a b : Value) : Bool :=
  match a, b with
  | .vDate x, .vDate y => x = y
  | a, b => looseEq a b

/-- `Array.prototype.includes` equality (SameValueZero).  Object-typed
elements compare by reference identity in JavaScript, which the model lacks;
they are never equal here, matching the fact that an operand array and a
record value are always distinct objects at runtime. -/
def sameValueZero : Value → Value → Bool
  | .vUndefined, .vUndefined => true
  | .vNull, .vNull => true
  | .vNum x, .vNum y => x = y
  | .vStr x, .vStr y => x = y
  | .vBool x, .vBool y => x = y
  | _, _ => false

/-- The `in` operator: `Array.isArray(b) && b.includes(a)`. -/
def evalInOp (a b : Value) : Bool :=
  match b with
  | .arr xs => xs.any (fun x => sameValueZero a x)
  | _ => false

/-! ### Operator evaluation (`_evaluateOperation`, `_evaluateLogicalOperation`)

The source dispatches through `this.operations[op]`, a property read on an
object literal whose prototype is `Object.prototype` — so the lookup
traverses the prototype chain.  Besides the seven own registry keys, the
member names of `Object.prototype` resolve to inherited built-ins, which
are truthy, pass the `if (!operation)` guard, and are invoked as plain
functions (class bodies are strict, so with an undefined receiver):

  * `toString` returns the string `[object Undefined]` (truthy);
  * `constructor` is the `Object` function and returns an object (truthy);
  * `isPrototypeOf` first tests its argument: for a non-object argument it
    returns false without touching the receiver; for an object argument it
    performs `ToObject(undefined)` and throws a native TypeError;
  * `valueOf`, `hasOwnProperty`, `propertyIsEnumerable`,
    `__defineGetter__`, `__defineSetter__`, `__lookupGetter__` and
    `__lookupSetter__` perform `ToObject(undefined)` and throw a native
    TypeError;
  * `toLocaleString` reads `toString` off the undefined receiver and throws
    a native TypeError;
  * reading `__proto__` yields `Object.prototype` itself (truthy), and
    calling it throws a native TypeError (not a function).

Every caller of `_evaluateOperation` feeds its result to `every`/`some`,
which coerce to boolean, so the model returns that boolean coercion
directly (`.ok true` for the truthy non-boolean results).  Any name outside
both the registry and `Object.prototype` is `undefined`, falsy, and throws
`InvalidCriteriaError`.  `evalOpsEvery`/`evalOpsSome` model
`entries.every(...)` / `entries.some(...)` over `(op, value)` pairs,
including short-circuiting and error propagation. -/

def operationNames : List String := ["gt", "lt", "gte", "lte", "in", "and", "or"]

/-- What a property read `this.operations[op]` can find: one of the seven
own registry functions, or an inherited member of `Object.prototype`. -/
inductive OperationRef where
  | opGt | opLt | opGte | opLte | opMem | opAnd | opOr
  | protoConstructor | protoToString | protoToLocaleString | protoValueOf
  | protoHasOwnProp | protoIsProtoOf | protoPropIsEnum | protoProtoGetter
  | protoDefGetter | protoDefSetter | protoLookGetter | protoLookSetter

/-- The own keys of the registry object literal. -/
def lookupRegistry (op : String) : Option OperationRef :=
  if op = "gt" then some .opGt
  else if op = "lt" then some .opLt
  else if op = "gte" then some .opGte
  else if op = "lte" then some .opLte
  else if op = "in" then some .opMem
  else if op = "and" then some .opAnd
  else if op = "or" then some .opOr
  else none

/-- The prototype-chain fallback: own members of `Object.prototype`
(Node/V8, Annex B included). -/
def lookupObjectProto (op : String) : Option OperationRef :=
  if op = "constructor" then some .protoConstructor
  else if op = "toString" then some .protoToString
  else if op = "toLocaleString" then some .protoToLocaleString
  else if op = "valueOf" then some .protoValueOf
  else if op = "hasOwnProperty" then some .protoHasOwnProp
  else if op = "isPrototypeOf" then some .protoIsProtoOf
  else if op = "propertyIsEnumerable" then some .protoPropIsEnum
  else if op = "__proto__" then some .protoProtoGetter
  else if op = "__defineGetter__" then some .protoDefGetter
  else if op = "__defineSetter__" then some .protoDefSetter
  else if op = "__lookupGetter__" then some .protoLookGetter
  else if op = "__lookupSetter__" then some .protoLookSetter
  else none

/-- `this.operations[op]`: own keys shadow the prototype. -/
def operationsLookup (op : String) : Option OperationRef :=
  match lookupRegistry op with
  | some r => some r
  | none => lookupObjectProto op

/-- Own member names of `Object.prototype` (Node/V8, Annex B included):
the names a property read on an object literal finds besides its own keys. -/
def objectProtoNames : List String :=
  ["constructor", "toString", "toLocaleString", "valueOf", "hasOwnProperty",
   "isPrototypeOf", "propertyIsEnumerable", "__proto__", "__defineGetter__",
   "__defineSetter__", "__lookupGetter__", "__lookupSetter__"]

/-- The inherited members whose invocation with an undefined receiver
always throws a native TypeError when used as an operator name. -/
def typeErrorNames : List String :=
  ["toLocaleString", "valueOf", "hasOwnProperty", "propertyIsEnumerable",
   "__proto__", "__defineGetter__", "__defineSetter__", "__lookupGetter__",
   "__lookupSetter__"]


mutual

def evaluateOperation (op : String) (cartValue value : Value) :
    Except EvalErr Bool :=
  match operationsLookup op with
  | none => .error (.invalidCriteria ("Unsupported operation: " ++ op))
  | some ref => applyOperation ref cartValue value
termination_by 2 * weight value + 2
decreasing_by
  all_goals simp_wf
  all_goals omega

/-- Invocation of the looked-up member with an undefined receiver, folded
through the boolean coercion its callers apply (`every`/`some`).  The engine
messages follow V8 wording; the quotes V8 puts around the property name in
the `toLocaleString` case are omitted, and no theorem inspects these
messages. -/
def applyOperation (ref : OperationRef) (cartValue value : Value) :
    Except EvalErr Bool :=
  match ref with
  | .opGt => .ok (compareValues cartValue value selGt)
  | .opLt => .ok (compareValues cartValue value selLt)
  | .opGte => .ok (compareValues cartValue value selGe)
  | .opLte => .ok (compareValues cartValue value selLe)
  | .opMem => .ok (evalInOp cartValue value)
  | .opAnd => evaluateLogicalOperation "and" cartValue value
  | .opOr => evaluateLogicalOperation "or" cartValue value
  | .protoToString => .ok true
  | .protoConstructor => .ok true
  | .protoIsProtoOf =>
    if isObject cartValue = true then
      .error (.typeError "Cannot convert undefined or null to object")
    else .ok false
  | .protoToLocaleString =>
    .error (.typeError "Cannot read properties of undefined (reading toString)")
  | .protoProtoGetter => .error (.typeError "operation is not a function")
  | .protoValueOf =>
    .error (.typeError "Cannot convert undefined or null to object")
  | .protoHasOwnProp =>
    .error (.typeError "Cannot convert undefined or null to object")
  | .protoPropIsEnum =>
    .error (.typeError "Cannot convert undefined or null to object")
  | .protoDefGetter =>
    .error (.typeError "Cannot convert undefined or null to object")
  | .protoDefSetter =>
    .error (.typeError "Cannot convert undefined or null to object")
  | .protoLookGetter =>
    .error (.typeError "Cannot convert undefined or null to object")
  | .protoLookSetter =>
    .error (.typeError "Cannot convert undefined or null to object")
termination_by 2 * weight value + 1
decreasing_by
  all_goals simp_wf
  all_goals omega

def evaluateLogicalOperation (logicalOp : String) (cartValue conditions : Value) :
    Except EvalErr Bool :=
  if hobj : isObject conditions = false then
    -- the source template wraps the operator name in single quotes;
    -- they are omitted here and no theorem inspects this message
    .error (.invalidCriteria
      ("Conditions for logical operation " ++ logicalOp ++ " must be an object"))
  else
    match he : entriesOf conditions with
    | none => .error (.typeError "Cannot convert undefined or null to object")
    | some entries =>
      if logicalOp = "and" then evalOpsEvery cartValue entries
      else if logicalOp = "or" then evalOpsSome cartValue entries
      else .ok false
termination_by 2 * weight conditions
decreasing_by
  all_goals simp_wf
  all_goals
    have hobj2 : isObject conditions = true := by
      revert hobj; cases isObject conditions <;> simp
  all_goals have := weightFields_entriesOf_lt hobj2 he
  all_goals omega

def evalOpsEvery (cartValue : Value) :
    List (String × Value) → Except EvalErr Bool
  | [] => .ok true
  | (op, v) :: rest =>
    match evaluateOperation op cartValue v with
    | .error e => .error e
    | .ok b => if b then evalOpsEvery cartValue rest else .ok false
termination_by entries => 2 * weightFields entries + 1
decreasing_by
  all_goals simp_wf
  all_goals simp [weightFields]
  all_goals omega

def evalOpsSome (cartValue : Value) :
    List (String × Value) → Except EvalErr Bool
  | [] => .ok false
  | (op, v) :: rest =>
    match evaluateOperation op cartValue v with
    | .error e => .error e
    | .ok b => if b then .ok true else evalOpsSome cartValue rest
termination_by entries => 2 * weightFields entries + 1
decreasing_by
  all_goals simp_wf
  all_goals simp [weightFields]
  all_goals omega

end

/-! ### Condition matching (`_evaluateCondition`)

The decision order of the source is preserved exactly:
1. neither side object-typed → primitive comparison;
2. resolved value an array → existential over its elements;
3. resolved value object-typed → structural descent over the entries of the
   condition (`subCondition = condition[key]`; an array-valued entry means
   "at least one element matches `cartValue[key]`");
4. otherwise (resolved value primitive, condition object-typed) → every
   condition entry is an `(operator, operand)` pair.
`evalCondAny` models `cartValue.some(...)`, `evalCondEntries` the
`Object.entries(condition).every(...)` of case 3, and `evalCondSome` the
`value.some(subValue => ...)` of the array-valued sub-condition. -/

mutual

def evaluateCondition (cartValue condition : Value) : Except EvalErr Bool :=
  if !isObject condition && !isObject cartValue then
    .ok (comparePrimitiveValues cartValue condition)
  else
    match cartValue with
    | .arr xs => evalCondAny xs condition
    | .obj fs =>
      match entriesOf condition with
      | none => .error (.typeError "Cannot convert undefined or null to object")
      | some entries => evalCondEntries (.obj fs) rfl condition entries
    | .vDate ms =>
      match entriesOf condition with
      | none => .error (.typeError "Cannot convert undefined or null to object")
      | some entries => evalCondEntries (.vDate ms) rfl condition entries
    | cv =>
      match entriesOf condition with
      | none => .error (.typeError "Cannot convert undefined or null to object")
      | some entries => evalOpsEvery cv entries
termination_by (weight cartValue, 1, 0)
decreasing_by
  all_goals simp_wf
  all_goals first
    | (apply Prod.Lex.left; exact weight_getField_lt _ hcv)
    | (apply Prod.Lex.left; simp [weight, weightList, weightFields] <;> omega)
    | (apply Prod.Lex.right; apply Prod.Lex.left; omega)
    | (apply Prod.Lex.right; apply Prod.Lex.right
       simp [weight, weightList, weightFields] <;> omega)
    | (apply Prod.Lex.right; apply Prod.Lex.right; omega)

def evalCondAny (xs : List Value) (condition : Value) : Except EvalErr Bool :=
  match xs with
  | [] => .ok false
  | x :: rest =>
    match evaluateCondition x condition with
    | .error e => .error e
    | .ok b => if b then .ok true else evalCondAny rest condition
termination_by (weightList xs + 1, 0, 0)
decreasing_by
  all_goals simp_wf
  all_goals first
    | (apply Prod.Lex.left; exact weight_getField_lt _ hcv)
    | (apply Prod.Lex.left; simp [weight, weightList, weightFields] <;> omega)
    | (apply Prod.Lex.right; apply Prod.Lex.left; omega)
    | (apply Prod.Lex.right; apply Prod.Lex.right
       simp [weight, weightList, weightFields] <;> omega)
    | (apply Prod.Lex.right; apply Prod.Lex.right; omega)

def evalCondEntries (cartValue : Value) (hcv : isObject cartValue = true)
    (condition : Value) : List (String × Value) → Except EvalErr Bool
  | [] => .ok true
  | (key, value) :: rest =>
    let head : Except EvalErr Bool :=
      match value with
      | .arr subs => evalCondSome (getField cartValue key) subs
      | _ => evaluateCondition (getField cartValue key) (getField condition key)
    match head with
    | .error e => .error e
    | .ok b =>
      if b then evalCondEntries cartValue hcv condition rest else .ok false
termination_by entries => (weight cartValue, 0, weightFields entries)
decreasing_by
  all_goals simp_wf
  all_goals first
    | (apply Prod.Lex.left; exact weight_getField_lt _ hcv)
    | (apply Prod.Lex.left; simp [weight, weightList, weightFields] <;> omega)
    | (apply Prod.Lex.right; apply Prod.Lex.left; omega)
    | (apply Prod.Lex.right; apply Prod.Lex.right
       simp [weight, weightList, weightFields] <;> omega)
    | (apply Prod.Lex.right; apply Prod.Lex.right; omega)

def evalCondSome (cartKeyValue : Value) : List Value → Except EvalErr Bool
  | [] => .ok false
  | sub :: rest =>
    match evaluateCondition cartKeyValue sub with
    | .error e => .error e
    | .ok b => if b then .ok true else evalCondSome cartKeyValue rest
termination_by subs => (weight cartKeyValue, 1, weightList subs + 1)
decreasing_by
  all_goals simp_wf
  all_goals first
    | (apply Prod.Lex.left; exact weight_getField_lt _ hcv)
    | (apply Prod.Lex.left; simp [weight, weightList, weightFields] <;> omega)
    | (apply Prod.Lex.right; apply Prod.Lex.left; omega)
    | (apply Prod.Lex.right; apply Prod.Lex.right
       simp [weight, weightList, weightFields] <;> omega)
    | (apply Prod.Lex.right; apply Prod.Lex.right; omega)

end

/-! ### Path resolution (`_getValueByKey`)

`key.split('.')` is folded over the record.  On an array accumulator the
source recurses via `this._getValueByKey(item, part)`; since `part` is a
single dot-free segment, that call is exactly one resolution step, which is
how `stepPart` models it (`stepList` is the `acc.map(...)`, `flattenOne` the
one-level `.flat()`). -/

/-- One-level `.flat()`: array elements are spliced, others kept. -/
def flattenOne : List Value → List Value
  | [] => []
  | .arr ys :: rest => ys ++ flattenOne rest
  | x :: rest => x :: flattenOne rest

mutual

def stepPart (acc : Value) (part : String) : Value :=
  match acc with
  | .arr xs => .arr (flattenOne (stepList xs part))
  | .obj fs => lookupField fs part
  | .vDate _ => .vUndefined
  | _ => .vUndefined

def stepList : List Value → String → List Value
  | [], _ => []
  | x :: xs, part => stepPart x part :: stepList xs part

end

/-- `key.split('.')`. -/
def splitKeyAux : List Char → List Char → List String
  | [], acc => [String.mk acc.reverse]
  | c :: rest, acc =>
    if c = '.' then String.mk acc.reverse :: splitKeyAux rest []
    else splitKeyAux rest (c :: acc)

def splitKey (key : String) : List String := splitKeyAux key.data []

/-- The `reduce` over the segments. -/
def reduceKey : Value → List String → Value
  | acc, [] => acc
  | acc, part :: rest => reduceKey (stepPart acc part) rest

def getValueByKey (cart : Value) (key : String) : Value :=
  reduceKey cart (splitKey key)

/-! ### The public entry point (`isEligible`) -/

/-- `Object.entries(criteria).every(([key, condition]) => ...)`. -/
def isEligibleEntries (cart : Value) :
    List (String × Value) → Except EvalErr Bool
  | [] => .ok true
  | (key, condition) :: rest =>
    match evaluateCondition (getValueByKey cart key) condition with
    | .error e => .error e
    | .ok b => if b then isEligibleEntries cart rest else .ok false

def isEligible (cart criteria : Value) : Except EvalErr Bool :=
  if !isObject cart || !isObject criteria then
    .error (.invalidCriteria "Both cart and criteria should be objects")
  else
    match entriesOf criteria with
    | none => .error (.typeError "Cannot convert undefined or null to object")
    | some entries => isEligibleEntries cart entries

/-! ### Auxiliary predicates for the claims -/

mutual

/-- The criteria-side invariant under which no native `TypeError` can
escape: the tree contains no `null`/`undefined` (whose use as a condition
against an object-typed resolved value reaches `Object.entries` and
throws), and no mapping key equal to an inherited `Object.prototype` member
that throws when invoked on an undefined receiver (the registry lookup
`this.operations[op]` traverses the prototype chain, so such a key in
operator position invokes the inherited built-in and a native `TypeError`
escapes). -/
def safeCond : Value → Bool
  | .vNull => false
  | .vUndefined => false
  | .arr xs => safeCondList xs
  | .obj fs => safeCondFields fs
  | _ => true

def safeCondList : List Value → Bool
  | [] => true
  | x :: xs => safeCond x && safeCondList xs

def safeCondFields : List (String × Value) → Bool
  | [] => true
  | (k, v) :: fs =>
    !(decide (k ∈ typeErrorNames)) && safeCond v && safeCondFields fs

end

/-! ### Canonical index strings round-trip through `parseIndex`

These lemmas justify that a key produced by `Object.entries` for an array or
string element really addresses that element on lookup. -/

/-- A name outside both the registry and `Object.prototype` is not found:
`this.operations[op]` is undefined there. -/
theorem operationsLookup_eq_none {op : String}
    (h1 : op ∉ operationNames) (h2 : op ∉ objectProtoNames) :
    operationsLookup op = none := by
  simp only [operationNames, List.mem_cons, List.not_mem_nil, or_false,
    not_or] at h1
  simp only [objectProtoNames, List.mem_cons, List.not_mem_nil, or_false,
    not_or] at h2
  obtain ⟨n1, n2, n3, n4, n5, n6, n7⟩ := h1
  obtain ⟨m1, m2, m3, m4, m5, m6, m7, m8, m9, m10, m11, m12⟩ := h2
  simp [operationsLookup, lookupRegistry, lookupObjectProto,
    n1, n2, n3, n4, n5, n6, n7, m1, m2, m3, m4, m5, m6, m7, m8, m9, m10,
    m11, m12]

/-- A condition entry whose resolved value is the empty array contributes
`false`, so `Object.entries(criteria).every` can never complete with `true`. -/
theorem evaluateCondition_emptyArray (cond : Value) :
    evaluateCondition (.arr []) cond = .ok false := by
  have hstep : evaluateCondition (Value.arr []) cond = evalCondAny [] cond := by
    simp [evaluateCondition, isObject]
  rw [hstep, evalCondAny]

theorem isEligibleEntries_emptyArr_ne_true {cart : Value} {k : String}
    {c : Value} :
    ∀ {es : List (String × Value)}, (k, c) ∈ es →
      getValueByKey cart k = .arr [] →
      isEligibleEntries cart es ≠ .ok true := by
  intro es
  induction es with
  | nil => intro h; cases h
  | cons p rest ih =>
    intro hm hk
    cases p with
    | mk k2 c2 =>
      rw [isEligibleEntries]
      rcases List.mem_cons.mp hm with hh | ht
      · obtain ⟨hk2, hc2⟩ : k2 = k ∧ c2 = c := by
          have := Prod.mk.injEq k c k2 c2 ▸ hh
          exact ⟨this.1.symm, this.2.symm⟩
        subst hk2; subst hc2
        rw [hk, evaluateCondition_emptyArray]
        simp
      · match hs : evaluateCondition (getValueByKey cart k2) c2 with
        | .error e => simp
        | .ok b =>
          cases b
          · simp
          · simpa using ih ht hk

/-! ### Claim theorems -/

/-- Claim C1, counterexample.  For `record = {color: "red"}` and criteria
`{"color": ["red", "blue"]}` the evaluator does not return true: the
resolved value `"red"` is primitive, so the array-valued condition falls
into the operator-leaf case, `Object.entries` enumerates the array by index,
and the index `"0"` is looked up as an operator name — throwing
`InvalidCriteriaError` with message `Unsupported operation: 0`.  The
`{"color": ["green", "blue"]}` variant throws identically instead of
returning false. -/
theorem C1_counterexample :
    isEligible (.obj [("color", .vStr "red")])
        (.obj [("color", .arr [.vStr "red", .vStr "blue"])])
      = .error (.invalidCriteria "Unsupported operation: 0")
    ∧ isEligible (.obj [("color", .vStr "red")])
        (.obj [("color", .arr [.vStr "green", .vStr "blue"])])
      = .error (.invalidCriteria "Unsupported operation: 0") := by
  constructor <;>
    simp [isEligible, isEligibleEntries, getValueByKey, splitKey, splitKeyAux, reduceKey,
      stepPart, stepList, lookupField, evaluateCondition, evalCondAny, evalCondEntries,
      evalCondSome, evalOpsEvery, evalOpsSome, evaluateOperation, operationsLookup,
      lookupRegistry, lookupObjectProto, applyOperation, evaluateLogicalOperation,
      comparePrimitiveValues, looseEq, entriesOf, arrayEntries, stringEntries, natToStr,
      natToStrAux, digitChar, isObject, getField, parseIndex, parseDigitsAux, charDigit,
      compareValues, jsCompare, toNumber, strToNumber, evalInOp, sameValueZero, flattenOne]

/-- Claim C1, amended.  An array-valued sub-condition means existential
equality matching only one structural level down, where the resolved value
is a mapping: `record = {c: {color: "red"}}` with criteria
`{"c": {"color": ["red", "blue"]}}` is true and with
`{"c": {"color": ["green", "blue"]}}` is false; at the top level against a
primitive resolved value the same criteria shape instead throws
`InvalidCriteriaError` (`Unsupported operation: 0`). -/
theorem C1_amended :
    isEligible (.obj [("c", .obj [("color", .vStr "red")])])
        (.obj [("c", .obj [("color", .arr [.vStr "red", .vStr "blue"])])])
      = .ok true
    ∧ isEligible (.obj [("c", .obj [("color", .vStr "red")])])
        (.obj [("c", .obj [("color", .arr [.vStr "green", .vStr "blue"])])])
      = .ok false
    ∧ isEligible (.obj [("color", .vStr "red")])
        (.obj [("color", .arr [.vStr "red", .vStr "blue"])])
      = .error (.invalidCriteria "Unsupported operation: 0") := by
  refine ⟨?_, ?_, ?_⟩ <;>
    simp [isEligible, isEligibleEntries, getValueByKey, splitKey, splitKeyAux, reduceKey,
      stepPart, stepList, lookupField, evaluateCondition, evalCondAny, evalCondEntries,
      evalCondSome, evalOpsEvery, evalOpsSome, evaluateOperation, operationsLookup,
      lookupRegistry, lookupObjectProto, applyOperation, evaluateLogicalOperation,
      comparePrimitiveValues, looseEq, entriesOf, arrayEntries, stringEntries, natToStr,
      natToStrAux, digitChar, isObject, getField, parseIndex, parseDigitsAux, charDigit,
      compareValues, jsCompare, toNumber, strToNumber, evalInOp, sameValueZero, flattenOne]

/-- Claim C2, counterexample.  The unknown-operator failure is not a
distinguishable error kind: criteria `{"age": {"foo": 1}}` throws the same
`InvalidCriteriaError` class (observable `e.name`) as the malformed-input
failure, differing only in message. -/
theorem C2_counterexample :
    isEligible (.obj [("age", .vNum 30)]) (.obj [("age", .obj [("foo", .vNum 1)])])
      = .error (.invalidCriteria "Unsupported operation: foo")
    ∧ isEligible (.vNum 0) (.vNum 0)
      = .error (.invalidCriteria "Both cart and criteria should be objects")
    ∧ EvalErr.errName (.invalidCriteria "Unsupported operation: foo")
      = EvalErr.errName
          (.invalidCriteria "Both cart and criteria should be objects") := by
  refine ⟨?_, ?_, rfl⟩ <;>
    simp [isEligible, isEligibleEntries, getValueByKey, splitKey, splitKeyAux, reduceKey,
      stepPart, stepList, lookupField, evaluateCondition, evalCondAny, evalCondEntries,
      evalCondSome, evalOpsEvery, evalOpsSome, evaluateOperation, operationsLookup,
      lookupRegistry, lookupObjectProto, applyOperation, evaluateLogicalOperation,
      comparePrimitiveValues, looseEq, entriesOf, isObject, getField]

/-- Claim C2, amended.  A leaf condition naming an operator outside both the
registry `{gt, lt, gte, lte, in, and, or}` and the inherited member names of
`Object.prototype` makes evaluation throw `InvalidCriteriaError` with
message `Unsupported operation: ` followed by the operator name — there is
no separate UnsupportedOperation error kind.  Inherited `Object.prototype`
members are found by the lookup instead of throwing that error: `toString`
resolves to a truthy built-in, so the entry counts as satisfied, while
`hasOwnProperty` is invoked on an undefined receiver and a native TypeError
escapes. -/
theorem C2_amended :
    (∀ (op : String) (cv v : Value), op ∉ operationNames →
      op ∉ objectProtoNames →
      evaluateOperation op cv v
        = .error (.invalidCriteria ("Unsupported operation: " ++ op)))
    ∧ (∀ cv v : Value, evaluateOperation "toString" cv v = .ok true)
    ∧ (∀ cv v : Value,
        evaluateOperation "hasOwnProperty" cv v
          = .error (.typeError "Cannot convert undefined or null to object")) := by
  refine ⟨?_, ?_, ?_⟩
  · intro op cv v h1 h2
    rw [evaluateOperation.eq_def, operationsLookup_eq_none h1 h2]
  · intro cv v
    simp [evaluateOperation, operationsLookup, lookupRegistry,
      lookupObjectProto, applyOperation]
  · intro cv v
    simp [evaluateOperation, operationsLookup, lookupRegistry,
      lookupObjectProto, applyOperation]

/-- Witness for C2: the operator `foo` is outside the registry and the
prototype chain, and fails with the stated message. -/
theorem C2_amended_witness :
    evaluateOperation "foo" (.vNum 30) (.vNum 1)
      = .error (.invalidCriteria "Unsupported operation: foo") :=
  C2_amended.1 "foo" (.vNum 30) (.vNum 1) (by simp [operationNames])
    (by simp [objectProtoNames])

/-- Claim C3, divergence of the code from its own date-equality helper.
Two dates with different epoch milliseconds still match: a `Date` passes the
`isObject` test, so date-vs-date matching takes the structural branch, where
`Object.entries` of the condition date is empty and the conjunction is
vacuous, returning true; the dedicated epoch-equality branch of
`_comparePrimitiveValues` (which returns false here) is unreachable from
`_evaluateCondition` for date pairs. -/
theorem C3_code_divergence :
    isEligible (.obj [("d", .vDate 0)]) (.obj [("d", .vDate 86400000)])
      = .ok true
    ∧ comparePrimitiveValues (.vDate 0) (.vDate 86400000) = false := by
  constructor
  · simp [isEligible, isEligibleEntries, getValueByKey, splitKey, splitKeyAux, reduceKey,
      stepPart, stepList, lookupField, evaluateCondition, evalCondAny, evalCondEntries,
      evalCondSome, entriesOf, isObject, getField]
  · simp [comparePrimitiveValues]

/-- Claim C4, counterexample.  An array at the top level is not rejected:
`isObject` accepts arrays, so `isEligible([], {})` returns true instead of
failing with `InvalidCriteriaError`. -/
theorem C4_counterexample : isEligible (.arr []) (.obj []) = .ok true := by
  simp [isEligible, isEligibleEntries, entriesOf, isObject]

/-- Claim C4, amended.  `isEligible` fails with the precondition
`InvalidCriteriaError` exactly when `record` or `criteria` is not a non-null
value of object type; primitives and null are rejected, but arrays (and
dates) pass the check, e.g. a top-level array record or criteria yields a
verdict. -/
theorem C4_amended :
    (∀ cart criteria : Value,
      isObject cart = false ∨ isObject criteria = false →
        isEligible cart criteria
          = .error (.invalidCriteria "Both cart and criteria should be objects"))
    ∧ isEligible (.arr []) (.obj []) = .ok true
    ∧ isEligible (.obj []) (.arr []) = .ok true := by
  refine ⟨?_, ?_, ?_⟩
  · intro cart criteria h
    rw [isEligible]
    have hguard : (!isObject cart || !isObject criteria) = true := by
      rcases h with h | h <;> simp [h]
    rw [hguard]
    simp
  · simp [isEligible, isEligibleEntries, entriesOf, isObject]
  · simp [isEligible, isEligibleEntries, entriesOf, isObject]

/-- Witness for C4: a numeric record is rejected with the precondition
error, while a top-level array is accepted. -/
theorem C4_amended_witness :
    isEligible (.vNum 3) (.obj [])
      = .error (.invalidCriteria "Both cart and criteria should be objects")
    ∧ isEligible (.arr []) (.obj []) = .ok true :=
  ⟨C4_amended.1 (.vNum 3) (.obj []) (Or.inl (by simp [isObject])),
   C4_amended.2.1⟩

/-- Claim C6.  Path resolution broadcasts over arrays with existential
matching: `{items: [{qty: 1}, {qty: 5}]}` satisfies
`{"items.qty": {"gte": 3}}` (the second element matches) and fails
`{"items.qty": {"gte": 10}}`. -/
theorem C6_path_broadcast :
    isEligible (.obj [("items", .arr [.obj [("qty", .vNum 1)], .obj [("qty", .vNum 5)]])])
        (.obj [("items.qty", .obj [("gte", .vNum 3)])]) = .ok true
    ∧ isEligible (.obj [("items", .arr [.obj [("qty", .vNum 1)], .obj [("qty", .vNum 5)]])])
        (.obj [("items.qty", .obj [("gte", .vNum 10)])]) = .ok false := by
  constructor <;>
    · simp [isEligible, isEligibleEntries, getValueByKey, splitKey, splitKeyAux, reduceKey,
        stepPart, stepList, lookupField, evaluateCondition, evalCondAny, evalCondEntries,
        evalCondSome, evalOpsEvery, evalOpsSome, evaluateOperation, operationsLookup,
      lookupRegistry, lookupObjectProto, applyOperation, evaluateLogicalOperation,
        comparePrimitiveValues, looseEq, entriesOf, arrayEntries, stringEntries, natToStr,
        natToStrAux, digitChar, isObject, getField, parseIndex, parseDigitsAux, charDigit,
        compareValues, jsCompare, toNumber, strToNumber, evalInOp, sameValueZero, flattenOne,
        selGt, selLt, selGe, selLe]
      rfl

/-- Claim C7.  For every resolved value, the `and` operator applied to an
empty operand mapping yields true (vacuous conjunction) and the `or`
operator yields false (vacuous existential). -/
theorem C7_vacuous_logical :
    ∀ cv : Value,
      evaluateOperation "and" cv (.obj []) = .ok true
      ∧ evaluateOperation "or" cv (.obj []) = .ok false := by
  intro cv
  constructor <;>
    simp [evaluateOperation, operationsLookup, lookupRegistry, lookupObjectProto,
      applyOperation, evaluateLogicalOperation, isObject, entriesOf,
      evalOpsEvery, evalOpsSome]

/-- Witness for C7 at a concrete resolved value. -/
theorem C7_vacuous_logical_witness :
    evaluateOperation "and" (.vNum 5) (.obj []) = .ok true
    ∧ evaluateOperation "or" (.vNum 5) (.obj []) = .ok false :=
  C7_vacuous_logical (.vNum 5)

/-- Claim C8.  Empty criteria accept every record that passes the
precondition: the conjunction over zero entries is vacuously true. -/
theorem C8_empty_criteria :
    ∀ record : Value, isObject record = true →
      isEligible record (.obj []) = .ok true := by
  intro record h
  rw [isEligible]
  have hguard : (!isObject record || !isObject (Value.obj [])) = false := by
    rw [h]; simp [isObject]
  rw [hguard]
  simp [entriesOf, isEligibleEntries]

/-- Witness for C8 at a concrete record. -/
theorem C8_empty_criteria_witness :
    isEligible (.obj [("x", .vNum 1)]) (.obj []) = .ok true :=
  C8_empty_criteria (.obj [("x", .vNum 1)]) (by simp [isObject])

/-- Claim C9, counterexample.  A criteria document containing an entry whose
resolved value is the empty array does not always return false: an earlier
entry can throw first.  Here the entry `b` resolves to the empty array, yet
the earlier entry `a` throws `InvalidCriteriaError` for the unknown operator
`foo`, so the call errors rather than returning false. -/
theorem C9_counterexample :
    getValueByKey (.obj [("a", .vNum 5), ("b", .arr [])]) "b" = .arr []
    ∧ isEligible (.obj [("a", .vNum 5), ("b", .arr [])])
        (.obj [("a", .obj [("foo", .vNum 1)]), ("b", .vNum 1)])
      = .error (.invalidCriteria "Unsupported operation: foo") := by
  constructor
  · simp [getValueByKey, splitKey, splitKeyAux, reduceKey, stepPart, lookupField]
  · simp [isEligible, isEligibleEntries, getValueByKey, splitKey, splitKeyAux, reduceKey,
      stepPart, stepList, lookupField, evaluateCondition, evalCondAny, evalCondEntries,
      evalCondSome, evalOpsEvery, evalOpsSome, evaluateOperation, operationsLookup,
      lookupRegistry, lookupObjectProto, applyOperation, evaluateLogicalOperation,
      comparePrimitiveValues, looseEq, entriesOf, isObject, getField]

/-- Claim C9, amended.  A resolved value that is the empty sequence fails
every condition whatsoever, so `isEligible` can never return true for
criteria containing such an entry; it returns false when no earlier entry
raises an error. -/
theorem C9_amended :
    (∀ cond : Value, evaluateCondition (.arr []) cond = .ok false)
    ∧ (∀ (cart criteria : Value) (es : List (String × Value))
        (k : String) (c : Value),
        entriesOf criteria = some es → (k, c) ∈ es →
        getValueByKey cart k = .arr [] →
        isEligible cart criteria ≠ .ok true) := by
  constructor
  · exact evaluateCondition_emptyArray
  · intro cart criteria es k c he hm hk
    rw [isEligible]
    by_cases hguard : (!isObject cart || !isObject criteria) = true
    · rw [if_pos hguard]; simp
    · rw [if_neg hguard, he]
      exact isEligibleEntries_emptyArr_ne_true hm hk

/-- Witness for C9: matching the empty array against a sample condition is
false, and a record resolving an entry to the empty array cannot make
`isEligible` true. -/
theorem C9_amended_witness :
    evaluateCondition (.arr []) (.vNum 7) = .ok false
    ∧ isEligible (.obj [("b", .arr [])]) (.obj [("b", .vNum 1)]) ≠ .ok true :=
  ⟨C9_amended.1 (.vNum 7),
   C9_amended.2 (.obj [("b", .arr [])]) (.obj [("b", .vNum 1)])
     [("b", .vNum 1)] "b" (.vNum 1) rfl (by simp)
     (by simp [getValueByKey, splitKey, splitKeyAux, reduceKey, stepPart, lookupField])⟩

/-- Claim C10.  Against a non-array mapping resolved value, a condition with
no enumerable own entries (a number, a boolean, a date, ...) matches
vacuously: the structural branch iterates `Object.entries(condition)`,
which is empty, so `every` is true — e.g.
`record = {user: {age: 25}}` with criteria `{"user": 42}` yields true. -/
theorem C10_entryless_condition :
    (∀ (fields : List (String × Value)) (cond : Value),
      entriesOf cond = some [] →
        evaluateCondition (.obj fields) cond = .ok true)
    ∧ isEligible (.obj [("user", .obj [("age", .vNum 25)])])
        (.obj [("user", .vNum 42)]) = .ok true := by
  constructor
  · intro fields cond he
    have hstep : evaluateCondition (Value.obj fields) cond =
        match entriesOf cond with
        | none => .error (.typeError "Cannot convert undefined or null to object")
        | some entries => evalCondEntries (.obj fields) rfl cond entries := by
      simp [evaluateCondition, isObject]
    rw [hstep, he]
    simp [evalCondEntries]
  · simp [isEligible, isEligibleEntries, getValueByKey, splitKey, splitKeyAux, reduceKey,
      stepPart, stepList, lookupField, evaluateCondition, evalCondAny, evalCondEntries,
      evalCondSome, evalOpsEvery, evalOpsSome, evaluateOperation, operationsLookup,
      lookupRegistry, lookupObjectProto, applyOperation, evaluateLogicalOperation,
      comparePrimitiveValues, looseEq, entriesOf, isObject, getField]

/-- Witness for C10: the number 42 as a condition against the mapping
`{age: 25}` matches vacuously. -/
theorem C10_entryless_condition_witness :
    evaluateCondition (.obj [("age", .vNum 25)]) (.vNum 42) = .ok true :=
  C10_entryless_condition.1 [("age", .vNum 25)] (.vNum 42) rfl
